import Mathlib

/-!
# Verification of the DEFRA ai-sdlc-code-analysis-api pipeline

Shallow embedding of the parts of the repository referenced by the frozen
claims, together with theorems settling those claims.

The embedded Python modules:
* `app/code_analysis/agents/nodes/consolidated_report.py`
* `app/code_analysis/agents/nodes/<topic>_report.py` (seven aggregators)
* `app/code_analysis/agents/nodes/analyse_code_chunk.py`
* `app/code_analysis/agents/nodes/process_code_chunks.py`
* `app/code_analysis/agents/nodes/code_chunker/chunking/chunk_processor.py`
* `app/code_analysis/agents/nodes/code_chunker/chunking/claude_integration.py`
* `app/code_analysis/agents/nodes/code_chunker/repository/file_structure.py`
* `app/code_analysis/agents/nodes/code_chunker/repository/clone.py`
* `app/code_analysis/agents/nodes/code_chunker/utils/error_handling.py`

Conventions of the embedding:
* Python `str` is `String`; Python lists are `List`; `None`-able strings are
  `Option String`; dictionaries appear as association lists in insertion
  order (Python 3.7+ dicts preserve insertion order).
* Code that calls the LLM receives the LLM as an explicit oracle argument;
  everything the claims talk about happens before or after that call.
* Code that can raise returns `Except String α`; the error string carries
  the Python exception rendering (claims never inspect the exact message).
* The filesystem is a finite ordered tree (`FsEntries` below); directory
  enumeration order (`os.scandir`) is the order of the entry list.
-/

namespace CodeAnalysis

/-! ## Python string primitives

`pyIsSpace` is Python's `\s` / `str.strip` whitespace on the ASCII range
(the repository only ever manipulates ASCII markdown and JSON here).
-/

def pyIsSpace (c : Char) : Bool :=
  c = ' ' ∨ c = '\t' ∨ c = '\n' ∨ c = '\r' ∨ c = '\x0b' ∨ c = '\x0c'

/-- Python `str.strip()`: drop whitespace from both ends. -/
def pyStrip (s : String) : String :=
  String.mk ((s.toList.dropWhile pyIsSpace).reverse.dropWhile pyIsSpace |>.reverse)

/-- Python `sep.join(xs)`. -/
def pyJoin (sep : String) : List String → String
  | [] => ""
  | [x] => x
  | x :: xs => x ++ sep ++ pyJoin sep xs

/-- Splitting a character list at `'\n'` (Python `str.split("\n")` always
returns at least one piece, and a trailing separator yields a final empty
piece). -/
def splitNlChars : List Char → List (List Char)
  | [] => [[]]
  | c :: rest =>
    if c = '\n' then [] :: splitNlChars rest
    else
      match splitNlChars rest with
      | [] => [[c]]
      | l :: ls => (c :: l) :: ls

/-- Python `s.split("\n")`. -/
def pySplitNl (s : String) : List String :=
  (splitNlChars s.toList).map String.mk

/-- Python `s.startswith(pre)`. -/
def pyStartsWith (s pre : String) : Bool :=
  pre.toList.isPrefixOf s.toList

/-- Lexicographic strict order on character lists by code point — Python's
string `<`. -/
def charListLt : List Char → List Char → Bool
  | [], [] => false
  | [], _ :: _ => true
  | _ :: _, [] => false
  | a :: as, b :: bs =>
    if a.toNat < b.toNat then true
    else if b.toNat < a.toNat then false
    else charListLt as bs

/-- Python string `<=`. -/
def strLe (a b : String) : Bool :=
  ¬ charListLt b.toList a.toList

/-- Insert into a `strLe`-sorted list, keeping existing equal elements
first (stability, as Python's `sorted`). -/
def insertSorted (x : String) : List String → List String
  | [] => [x]
  | y :: ys => if strLe y x then y :: insertSorted x ys else x :: y :: ys

/-- Python `sorted` on strings (stable insertion sort). -/
def sortStrings : List String → List String
  | [] => []
  | x :: xs => insertSorted x (sortStrings xs)

/-! ## Data model (`models/code_chunk.py`, `models/code_analysis_chunk.py`,
`models/report_section.py`, `agents/states/code_analysis.py`) -/

/-- `CodeChunk` (pydantic model, `models/code_chunk.py`). -/
structure CodeChunk where
  chunk_id : String
  description : String
  files : List String
  content : String
deriving DecidableEq, Repr

/-- `CodeAnalysisChunk` (pydantic model, `models/code_analysis_chunk.py`). -/
structure CodeAnalysisChunk where
  chunk_id : String
  summary : String
  data_model : Option String
  interfaces : Option String
  business_logic : Option String
  dependencies : Option String
  configuration : Option String
  infrastructure : Option String
  non_functional : Option String
deriving DecidableEq, Repr

/-- `ReportSection` (pydantic model, `models/report_section.py`); field order
is the pydantic declaration order, which `model_dump().items()` preserves. -/
structure ReportSection where
  data_model : Option String := none
  interfaces : Option String := none
  business_logic : Option String := none
  dependencies : Option String := none
  configuration : Option String := none
  infrastructure : Option String := none
  non_functional : Option String := none
deriving DecidableEq, Repr

/-- The values of `ReportSection.model_dump().items()` in declaration order. -/
def ReportSection.fieldValues (rs : ReportSection) : List (Option String) :=
  [rs.data_model, rs.interfaces, rs.business_logic, rs.dependencies,
   rs.configuration, rs.infrastructure, rs.non_functional]

/-- `CodeAnalysisState` (pydantic model, `agents/states/code_analysis.py`). -/
structure CodeAnalysisState where
  repo_url : String
  file_structure : String
  languages_used : List String
  ingested_repo_chunks : List CodeChunk
  analyzed_code_chunks : List CodeAnalysisChunk := []
  report_sections : ReportSection := {}
  consolidated_report : String := ""
  product_requirements : String := ""
deriving DecidableEq, Repr

/-! ## Consolidated report (`agents/nodes/consolidated_report.py`) -/

/-- The regex `^(#+)\s+(.*)` of `transform_report_section`, applied to one
line: a maximal non-empty run of `#`, at least one whitespace character, and
the rest of the line with the whole (maximal) whitespace run consumed by the
greedy `\s+`.  Returns the heading level and the heading text. -/
def headingMatch (line : String) : Option (Nat × String) :=
  let cs := line.toList
  let hashes := cs.takeWhile (· = '#')
  let rest := cs.dropWhile (· = '#')
  if hashes.length = 0 then none
  else
    match rest with
    | [] => none
    | c :: _ =>
      if pyIsSpace c then some (hashes.length, String.mk (rest.dropWhile pyIsSpace))
      else none

/-- A run of `n` `'#'` characters (Python `'#' * new_level`). -/
def hashRun (n : Nat) : String :=
  String.mk (List.replicate n '#')

/-- The per-line loop of `transform_report_section`: `sub` is the running
`subheading_count`. -/
def transformLines (sectionNumber : Nat) : Nat → List String → List String
  | _, [] => []
  | sub, line :: rest =>
    match headingMatch line with
    | some (1, text) =>
      ("## " ++ toString sectionNumber ++ ". " ++ text)
        :: transformLines sectionNumber 0 rest
    | some (2, text) =>
      ("### " ++ toString sectionNumber ++ "." ++ toString (sub + 1) ++ ". " ++ text)
        :: transformLines sectionNumber (sub + 1) rest
    | some (lvl, text) =>
      (hashRun (lvl + 1) ++ " " ++ text) :: transformLines sectionNumber sub rest
    | none => line :: transformLines sectionNumber sub rest

/-- `transform_report_section(section_content, section_number)`. -/
def transform_report_section (sectionContent : String) (sectionNumber : Nat) : String :=
  pyJoin "\n" (transformLines sectionNumber 0 (pySplitNl sectionContent))

/-- The numbered transformation of the populated sections, mirroring the
`for field_name, field_value in state.report_sections.model_dump().items()`
loop of `generate_consolidated_report` with its running `section_index`. -/
def transformedParts : Nat → List (Option String) → List String
  | _, [] => []
  | idx, none :: rest => transformedParts idx rest
  | idx, some v :: rest => transform_report_section v (idx + 1) :: transformedParts (idx + 1) rest

/-- The prologue header of `generate_consolidated_report`. -/
def reportHeader (st : CodeAnalysisState) : String :=
  "# Code Analysis Report\n\n## Repository Information\n- **Repository URL:** "
    ++ st.repo_url ++ "\n- **Languages Used:** " ++ pyJoin ", " st.languages_used
    ++ "\n\n"

/-- `generate_consolidated_report(state)` (the LLM is not involved). -/
def generate_consolidated_report (st : CodeAnalysisState) : CodeAnalysisState :=
  let parts := transformedParts 0 st.report_sections.fieldValues
  let full := reportHeader st ++ pyJoin "\n\n" parts
  { st with consolidated_report := full }

/-! ## The seven report aggregators (`agents/nodes/<topic>_report.py`)

Each node concatenates the per-chunk fragments of its topic and either
records a "no information found" sentinel or calls the LLM.  The LLM call
`generate_report(system_prompt, user_prompt)` is the oracle `llm`, applied
to the dynamic context string (the static prompt text around it does not
affect control flow or any claim).

In `data_model_report.py`, `dependencies_report.py` and
`non_functional_report.py` the `report = generate_report(...)` call is
inside the `else` branch and the result is wrapped in a `# <Topic> Report`
header.  In `interfaces_report.py`, `business_logic_report.py`,
`configuration_report.py` and `infrastructure_report.py` the call sits
*after* the `if`/`else` at function level: when the context is empty the
sentinel assignment is immediately overwritten and the call evaluates the
local `system_prompt`, which was only bound in the `else` branch, so the
node raises `UnboundLocalError`; these four nodes also store the report
without a header wrapper. -/

/-- The `"\n\n".join("Chunk {id}:\n{fragment}" ...)` context of an
aggregator; Python's `if chunk.<topic>` skips both `None` and `""`. -/
def topicContext (topic : CodeAnalysisChunk → Option String)
    (chunks : List CodeAnalysisChunk) : String :=
  pyJoin "\n\n" (chunks.filterMap fun c =>
    match topic c with
    | some v => if v = "" then none else some ("Chunk " ++ c.chunk_id ++ ":\n" ++ v)
    | none => none)

/-- `generate_data_model_report(state)`. -/
def generate_data_model_report (llm : String → String) (s : CodeAnalysisState) :
    CodeAnalysisState :=
  let context := topicContext (fun c => c.data_model) s.analyzed_code_chunks
  let report :=
    if pyStrip context = "" then
      "No data model information found in the analyzed code chunks."
    else llm context
  let formatted := "# Data Model Report\n\n" ++ report
  { s with report_sections := { s.report_sections with data_model := some formatted } }

/-- `generate_dependencies_report(state)`. -/
def generate_dependencies_report (llm : String → String) (s : CodeAnalysisState) :
    CodeAnalysisState :=
  let context := topicContext (fun c => c.dependencies) s.analyzed_code_chunks
  let report :=
    if pyStrip context = "" then
      "No dependencies information found in the analyzed code chunks."
    else llm context
  let formatted := "# Dependencies Report\n\n" ++ report
  { s with report_sections := { s.report_sections with dependencies := some formatted } }

/-- `generate_non_functional_report(state)`. -/
def generate_non_functional_report (llm : String → String) (s : CodeAnalysisState) :
    CodeAnalysisState :=
  let context := topicContext (fun c => c.non_functional) s.analyzed_code_chunks
  let report :=
    if pyStrip context = "" then
      "No non-functional information found in the analyzed code chunks."
    else llm context
  let formatted := "# Non-Functional Report\n\n" ++ report
  { s with
      report_sections := { s.report_sections with non_functional := some formatted } }

/-- `generate_interfaces_report(state)`: on an empty context the trailing
`report = generate_report(system_prompt, user_prompt)` raises
`UnboundLocalError` (the sentinel assignment is dead). -/
def generate_interfaces_report (llm : String → String) (s : CodeAnalysisState) :
    Except String CodeAnalysisState :=
  let context := topicContext (fun c => c.interfaces) s.analyzed_code_chunks
  if pyStrip context = "" then
    Except.error "UnboundLocalError: local variable system_prompt referenced before assignment"
  else
    Except.ok
      { s with report_sections := { s.report_sections with interfaces := some (llm context) } }

/-- `generate_business_logic_report(state)`: same dead-sentinel shape as the
interfaces node. -/
def generate_business_logic_report (llm : String → String) (s : CodeAnalysisState) :
    Except String CodeAnalysisState :=
  let context := topicContext (fun c => c.business_logic) s.analyzed_code_chunks
  if pyStrip context = "" then
    Except.error "UnboundLocalError: local variable system_prompt referenced before assignment"
  else
    Except.ok
      { s with
          report_sections := { s.report_sections with business_logic := some (llm context) } }

/-- `generate_configuration_report(state)`: same dead-sentinel shape. -/
def generate_configuration_report (llm : String → String) (s : CodeAnalysisState) :
    Except String CodeAnalysisState :=
  let context := topicContext (fun c => c.configuration) s.analyzed_code_chunks
  if pyStrip context = "" then
    Except.error "UnboundLocalError: local variable system_prompt referenced before assignment"
  else
    Except.ok
      { s with
          report_sections := { s.report_sections with configuration := some (llm context) } }

/-- `generate_infrastructure_report(state)`: same dead-sentinel shape. -/
def generate_infrastructure_report (llm : String → String) (s : CodeAnalysisState) :
    Except String CodeAnalysisState :=
  let context := topicContext (fun c => c.infrastructure) s.analyzed_code_chunks
  if pyStrip context = "" then
    Except.error "UnboundLocalError: local variable system_prompt referenced before assignment"
  else
    Except.ok
      { s with
          report_sections := { s.report_sections with infrastructure := some (llm context) } }

/-- The aggregator stage of the workflow graph (`agents/code_analysis.py`):
`data_model → interfaces → business_logic → dependencies → configuration →
infrastructure → non_functional → consolidated`.  A raising node aborts the
graph invocation. -/
def runReportPipeline (odm oif obl odep ocfg oinf onf : String → String)
    (s : CodeAnalysisState) : Except String CodeAnalysisState := do
  let s1 := generate_data_model_report odm s
  let s2 ← generate_interfaces_report oif s1
  let s3 ← generate_business_logic_report obl s2
  let s4 := generate_dependencies_report odep s3
  let s5 ← generate_configuration_report ocfg s4
  let s6 ← generate_infrastructure_report oinf s5
  let s7 := generate_non_functional_report onf s6
  return generate_consolidated_report s7

/-! ## Per-chunk analyzer (`agents/nodes/analyse_code_chunk.py`)

Everything before the model call (prompt construction, token accounting)
does not affect the returned record; the LLM's structured response is the
`response` argument.  The embedded function is the tail of
`analyse_code_chunk`: the chunk-id repair and the return. -/

/-- The chunk-id repair in `analyse_code_chunk`: if the response's
`chunk_id` differs from the requested chunk's id, rebuild the record from
`model_dump()` with `chunk_id` replaced; otherwise return it untouched. -/
def analyse_code_chunk (requested : CodeChunk) (response : CodeAnalysisChunk) :
    CodeAnalysisChunk :=
  if response.chunk_id ≠ requested.chunk_id then
    { chunk_id := requested.chunk_id
      summary := response.summary
      data_model := response.data_model
      interfaces := response.interfaces
      business_logic := response.business_logic
      dependencies := response.dependencies
      configuration := response.configuration
      infrastructure := response.infrastructure
      non_functional := response.non_functional }
  else response

/-! ## Sequential chunk processing (`agents/nodes/process_code_chunks.py`)

The `code_chunk_analysis` subgraph invocation is the oracle `subgraph`:
for a chunk it yields the subgraph output's `analyzed_code_chunk`. -/

/-- `process_code_chunks(state)` with the subgraph as an oracle. -/
def process_code_chunks (subgraph : CodeChunk → CodeAnalysisChunk)
    (state : CodeAnalysisState) : CodeAnalysisState :=
  if state.ingested_repo_chunks.isEmpty then state
  else
    { state with analyzed_code_chunks := state.ingested_repo_chunks.map subgraph }

/-! ## Filesystem model

A directory listing in `os.scandir` enumeration order: each entry is a file
or a directory with its own listing.  Paths use the POSIX separator. -/

inductive FsEntries where
  | nil : FsEntries
  | consFile (name : String) (rest : FsEntries) : FsEntries
  | consDir (name : String) (sub : FsEntries) (rest : FsEntries) : FsEntries
deriving DecidableEq, Repr

/-- A name hidden to glob (`_ishidden`): it starts with a dot. -/
def hiddenName (name : String) : Bool :=
  pyStartsWith name "."

/-- POSIX path join relative to the repo root (the root itself is `""`). -/
def pathJoin (pre name : String) : String :=
  if pre = "" then name else pre ++ "/" ++ name

/-- Python `s.endswith(suffix)`. -/
def pyEndsWith (s suffix : String) : Bool :=
  suffix.toList.isSuffixOf s.toList

/-! ## Glob expansion (`chunking/chunk_processor.py`, `expand_glob_patterns`)

For the pattern `**/*.py` (the one the claim is about), CPython's
`glob.glob(os.path.join(repo, "**/*.py"), recursive=True)` resolves the
`**` dirname first — the repo root itself followed by every non-hidden
subdirectory in preorder (`_rlistdir`, `os.scandir` order) — and then, for
each such directory, matches its non-hidden entries against `*.py`
(`glob1`); `expand_glob_patterns` then keeps regular files only, converts
to repo-relative paths, and removes duplicates preserving order.  `glob`
never sorts. -/

/-- `glob1(d, "*.py")` restricted to regular files (a directory whose name
matches `*.py` would be globbed and then discarded by the `os.path.isfile`
filter in `expand_glob_patterns`): the non-hidden file entries of one
directory whose names end in `.py`, as repo-relative paths. -/
def pyMatchFiles (pre : String) : FsEntries → List String
  | .nil => []
  | .consFile n rest =>
    (if ¬ hiddenName n ∧ pyEndsWith n ".py" then [pathJoin pre n] else [])
      ++ pyMatchFiles pre rest
  | .consDir _ _ rest => pyMatchFiles pre rest

/-- `_rlistdir`: the non-hidden subdirectories in preorder (each directory
before its own subdirectories, siblings in enumeration order). -/
def dirsPreorder (pre : String) : FsEntries → List (String × FsEntries)
  | .nil => []
  | .consFile _ rest => dirsPreorder pre rest
  | .consDir n sub rest =>
    if hiddenName n then dirsPreorder pre rest
    else
      (pathJoin pre n, sub)
        :: (dirsPreorder (pathJoin pre n) sub ++ dirsPreorder pre rest)

/-- `glob.glob(repo + "/**/*.py", recursive=True)` as repo-relative paths:
the root's matches first, then each subdirectory's matches in preorder. -/
def globStarStarPy (root : FsEntries) : List String :=
  pyMatchFiles "" root
    ++ (dirsPreorder "" root).flatMap (fun d => pyMatchFiles d.1 d.2)

/-- The duplicate-removal loop of `expand_glob_patterns` (append each path
not seen before, preserving order). -/
def dedupKeepOrder (seen : List String) : List String → List String
  | [] => []
  | x :: xs =>
    if x ∈ seen then dedupKeepOrder seen xs
    else x :: dedupKeepOrder (x :: seen) xs

/-- `expand_glob_patterns(["**/*.py"], repo_path, logger)`. -/
def expand_glob_patterns_starstar_py (root : FsEntries) : List String :=
  dedupKeepOrder [] (globStarStarPy root)

/-- Spec-side: the repo-relative paths of the `.py` files under the root
whose path components are all non-hidden (glob's only exclusion), in
tree order, independently of glob's traversal strategy. -/
def pyFilesUnder (pre : String) : FsEntries → List String
  | .nil => []
  | .consFile n rest =>
    (if ¬ hiddenName n ∧ pyEndsWith n ".py" then [pathJoin pre n] else [])
      ++ pyFilesUnder pre rest
  | .consDir n sub rest =>
    (if hiddenName n then [] else pyFilesUnder (pathJoin pre n) sub)
      ++ pyFilesUnder pre rest

/-! ## File-structure tree (`repository/file_structure.py`)

`generate_file_structure` renders the directory tree with the fixed
exclude patterns `[".git", "__pycache__", "*.pyc"]` (matched by `fnmatch`
against the basename; the repository root directory itself is a temp
directory whose name matches none of them).  At each level the directory
and file names are collected (`_get_directory_contents`), sorted, and the
subdirectories are rendered before the files.  The `.gitignore` file plays
no role here.  Recursion is written with a fuel argument that starts above
the tree depth, so it never runs out. -/

/-- `should_exclude` over the default patterns: `fnmatch(basename, ".git")`
and `fnmatch(basename, "__pycache__")` are exact comparisons (no wildcard),
`fnmatch(basename, "*.pyc")` is an `endswith`. -/
def should_exclude (name : String) : Bool :=
  name = ".git" ∨ name = "__pycache__" ∨ pyEndsWith name ".pyc"

/-- The non-excluded subdirectory entries of one listing
(`_get_directory_contents`, dirs part). -/
def collectDirs : FsEntries → List (String × FsEntries)
  | .nil => []
  | .consFile _ rest => collectDirs rest
  | .consDir n sub rest =>
    if should_exclude n then collectDirs rest else (n, sub) :: collectDirs rest

/-- The non-excluded file entries of one listing
(`_get_directory_contents`, files part). -/
def collectFiles : FsEntries → List String
  | .nil => []
  | .consFile n rest =>
    if should_exclude n then collectFiles rest else n :: collectFiles rest
  | .consDir _ _ rest => collectFiles rest

/-- Stable insertion into a list of `(name, listing)` pairs sorted by name
(`dirs.sort()`). -/
def insertSortedPair (x : String × FsEntries) :
    List (String × FsEntries) → List (String × FsEntries)
  | [] => [x]
  | y :: ys => if strLe y.1 x.1 then y :: insertSortedPair x ys else x :: y :: ys

/-- `dirs.sort()` on name/listing pairs. -/
def sortPairs : List (String × FsEntries) → List (String × FsEntries)
  | [] => []
  | x :: xs => insertSortedPair x (sortPairs xs)

/-- `_add_files`: file lines with `└── ` on the last file, `├── `
otherwise. -/
def renderFiles : List String → String → List String
  | [], _ => []
  | f :: rest, indent =>
    (indent ++ (if rest.isEmpty then "└── " else "├── ") ++ f)
      :: renderFiles rest indent

/-- `_add_subdirectories` followed by `_add_files`: render the remaining
sorted directory entries (each followed by its own contents, indented with
`"    "` after a `└── ` marker and with the `"│   "` prefix otherwise) and
then the sorted files.  A directory is `is_last` only when it is the final
directory and there are no files. -/
def renderEntries : Nat → List (String × FsEntries) → List String → String → List String
  | 0, _, _, _ => []
  | _ + 1, [], files, indent => renderFiles files indent
  | fuel + 1, (n, sub) :: rest, files, indent =>
    (indent ++ (if rest.isEmpty && files.isEmpty then "└── " else "├── ") ++ n ++ "/")
      :: (renderEntries fuel (sortPairs (collectDirs sub))
            (sortStrings (collectFiles sub))
            (indent ++ (if rest.isEmpty && files.isEmpty then "    " else "│   "))
          ++ renderEntries fuel rest files indent)

/-- Structural size of the tree; `renderEntries` never exhausts a fuel of
this size (each recursive step moves into a subtree or past a sibling). -/
def fsSize : FsEntries → Nat
  | .nil => 1
  | .consFile _ rest => 1 + fsSize rest
  | .consDir _ sub rest => 1 + fsSize sub + fsSize rest

/-- `generate_file_structure(repo_path, logger)`. -/
def generate_file_structure (root : FsEntries) : String :=
  pyJoin "\n"
    (renderEntries (fsSize root) (sortPairs (collectDirs root))
      (sortStrings (collectFiles root)) "")

/-! ## Language detection (`repository/file_structure.py`,
`utils/parser_utils.py`)

`detect_languages` walks every directory under the root (`os.walk`, no
exclusions, hidden directories included) and collects the languages of the
file extensions found in the supplied mapping.  The caller
(`analyzer.py`) passes `ParserManager.SUPPORTED_LANGUAGES`. -/

/-- `ParserManager.SUPPORTED_LANGUAGES` (`utils/parser_utils.py`): five
entries — there is no `.scala` entry. -/
def SUPPORTED_LANGUAGES : List (String × String) :=
  [(".py", "python"), (".js", "javascript"), (".ts", "typescript"),
   (".cs", "csharp"), (".java", "java")]

/-- The mapping named by the claim (and spec §4.1), including
`.scala → scala`. -/
def claimLanguageTable : List (String × String) :=
  [(".py", "python"), (".js", "javascript"), (".ts", "typescript"),
   (".cs", "csharp"), (".java", "java"), (".scala", "scala")]

/-- Every file basename under the root (all directories walked; `os.walk`
order is irrelevant because the result is a set). -/
def allFileNames : FsEntries → List String
  | .nil => []
  | .consFile n rest => n :: allFileNames rest
  | .consDir _ sub rest => allFileNames sub ++ allFileNames rest

/-- `os.path.splitext(file)[1]`: the suffix from the last dot, except that
the leading dots of the name never start an extension. -/
def splitextExt (name : String) : String :=
  let rest := name.toList.dropWhile (· = '.')
  if rest.contains '.' then
    "." ++ String.mk ((rest.reverse.takeWhile (· ≠ '.')).reverse)
  else ""

/-- The loop body of `detect_languages`: add the mapped language of one
file's extension, if the extension is in the table. -/
def detectStep (acc : Finset String) (n : String) : Finset String :=
  match SUPPORTED_LANGUAGES.lookup (splitextExt n) with
  | some lang => insert lang acc
  | none => acc

/-- `detect_languages(repo_path, supported_languages, logger)` with a
dictionary argument: the set of mapped languages of the extensions found
(Python returns `list(languages)` of a `set` — an unordered set). -/
def detect_languages (root : FsEntries) : Finset String :=
  (allFileNames root).foldl detectStep ∅

/-- The claim's detected-language set: the image of the claimed six-entry
table over the extensions of the files present. -/
def claimDetectedLanguages (root : FsEntries) : Finset String :=
  ((allFileNames root).filterMap
    (fun n => claimLanguageTable.lookup (splitextExt n))).toFinset

/-! ## JSON values and `json.loads`
(`chunking/claude_integration.py` relies on Python's `json` module)

A JSON value; numbers keep their lexeme, since no claim inspects numeric
values.  The parser below follows the strict JSON grammar that
`json.loads` accepts (leading/trailing whitespace tolerated, `"\uXXXX"`
escapes decoded — surrogate pairs are not combined, which no claim
exercises; the non-standard `NaN`/`Infinity` literals are likewise not
modelled).  Python dicts keep the *last* binding of a duplicated key, so
lookups below take the last match. -/

inductive Json where
  | null : Json
  | bool (b : Bool) : Json
  | num (lexeme : String) : Json
  | str (s : String) : Json
  | arr (xs : List Json) : Json
  | obj (kvs : List (String × Json)) : Json

/-- JSON inter-token whitespace (`json.decoder`: space, tab, newline,
carriage return). -/
def jsonWs (c : Char) : Bool :=
  c = ' ' ∨ c = '\t' ∨ c = '\n' ∨ c = '\r'

/-- Skip JSON whitespace. -/
def skipWs (cs : List Char) : List Char :=
  cs.dropWhile jsonWs

/-- Value of a hexadecimal digit. -/
def hexVal (c : Char) : Option Nat :=
  if 48 ≤ c.toNat ∧ c.toNat ≤ 57 then some (c.toNat - 48)
  else if 97 ≤ c.toNat ∧ c.toNat ≤ 102 then some (c.toNat - 87)
  else if 65 ≤ c.toNat ∧ c.toNat ≤ 70 then some (c.toNat - 55)
  else none

/-- Optional exponent part of a JSON number. -/
def pNumExp (mantissa : List Char) (rest : List Char) :
    Option (List Char × List Char) :=
  match rest with
  | c :: r2 =>
    if c = 'e' ∨ c = 'E' then
      match r2 with
      | '+' :: r3 =>
        if (r3.takeWhile Char.isDigit).isEmpty then none
        else some (mantissa ++ c :: '+' :: r3.takeWhile Char.isDigit,
          r3.dropWhile Char.isDigit)
      | '-' :: r3 =>
        if (r3.takeWhile Char.isDigit).isEmpty then none
        else some (mantissa ++ c :: '-' :: r3.takeWhile Char.isDigit,
          r3.dropWhile Char.isDigit)
      | _ =>
        if (r2.takeWhile Char.isDigit).isEmpty then none
        else some (mantissa ++ c :: r2.takeWhile Char.isDigit,
          r2.dropWhile Char.isDigit)
    else some (mantissa, rest)
  | [] => some (mantissa, [])

/-- Optional fraction part of a JSON number, then the exponent. -/
def pNumTail (intPart : List Char) (rest : List Char) :
    Option (List Char × List Char) :=
  match rest with
  | '.' :: r2 =>
    if (r2.takeWhile Char.isDigit).isEmpty then none
    else pNumExp (intPart ++ '.' :: r2.takeWhile Char.isDigit)
      (r2.dropWhile Char.isDigit)
  | _ => pNumExp intPart rest

/-- A JSON number: optional `-`, `0` or a nonzero-led digit run, optional
fraction, optional exponent.  Returns the lexeme and the rest. -/
def pNumber (cs : List Char) : Option (List Char × List Char) :=
  match cs with
  | '-' :: c :: r =>
    if c = '0' then pNumTail ['-', '0'] r
    else if c.isDigit then
      pNumTail ('-' :: c :: r.takeWhile Char.isDigit) (r.dropWhile Char.isDigit)
    else none
  | c :: r =>
    if c = '0' then pNumTail ['0'] r
    else if c.isDigit then
      pNumTail (c :: r.takeWhile Char.isDigit) (r.dropWhile Char.isDigit)
    else none
  | [] => none

/-- The characters of a JSON string after the opening quote, with escapes
decoded; returns the content and the rest after the closing quote.
Unescaped control characters are rejected (strict `json.loads`). -/
def pStringChars : Nat → List Char → Option (List Char × List Char)
  | 0, _ => none
  | _ + 1, [] => none
  | fuel + 1, c :: rest =>
    if c = '"' then some ([], rest)
    else if c = '\\' then
      match rest with
      | '"' :: r => (pStringChars fuel r).map (fun p => ('"' :: p.1, p.2))
      | '\\' :: r => (pStringChars fuel r).map (fun p => ('\\' :: p.1, p.2))
      | '/' :: r => (pStringChars fuel r).map (fun p => ('/' :: p.1, p.2))
      | 'b' :: r => (pStringChars fuel r).map (fun p => ('\x08' :: p.1, p.2))
      | 'f' :: r => (pStringChars fuel r).map (fun p => ('\x0c' :: p.1, p.2))
      | 'n' :: r => (pStringChars fuel r).map (fun p => ('\n' :: p.1, p.2))
      | 'r' :: r => (pStringChars fuel r).map (fun p => ('\r' :: p.1, p.2))
      | 't' :: r => (pStringChars fuel r).map (fun p => ('\t' :: p.1, p.2))
      | 'u' :: h1 :: h2 :: h3 :: h4 :: r =>
        match hexVal h1, hexVal h2, hexVal h3, hexVal h4 with
        | some v1, some v2, some v3, some v4 =>
          (pStringChars fuel r).map
            (fun p => (Char.ofNat (((v1 * 16 + v2) * 16 + v3) * 16 + v4) :: p.1, p.2))
        | _, _, _, _ => none
      | _ => none
    else if c.toNat < 32 then none
    else (pStringChars fuel rest).map (fun p => (c :: p.1, p.2))

mutual

/-- A JSON value, with leading whitespace skipped. -/
def pValue : Nat → List Char → Option (Json × List Char)
  | 0, _ => none
  | fuel + 1, cs =>
    match skipWs cs with
    | [] => none
    | c :: rest =>
      if c = '{' then
        match skipWs rest with
        | '}' :: r2 => some (.obj [], r2)
        | _ =>
          match pMembers fuel rest with
          | some (kvs, r2) => some (.obj kvs, r2)
          | none => none
      else if c = '[' then
        match skipWs rest with
        | ']' :: r2 => some (.arr [], r2)
        | _ =>
          match pItems fuel rest with
          | some (xs, r2) => some (.arr xs, r2)
          | none => none
      else if c = '"' then
        match pStringChars (rest.length + 1) rest with
        | some (content, r2) => some (.str (String.mk content), r2)
        | none => none
      else if c = 'n' then
        if "ull".toList.isPrefixOf rest then some (.null, rest.drop 3) else none
      else if c = 't' then
        if "rue".toList.isPrefixOf rest then some (.bool true, rest.drop 3) else none
      else if c = 'f' then
        if "alse".toList.isPrefixOf rest then some (.bool false, rest.drop 4) else none
      else
        match pNumber (c :: rest) with
        | some (lex, r2) => some (.num (String.mk lex), r2)
        | none => none

/-- One or more array items, consuming the closing `]`. -/
def pItems : Nat → List Char → Option (List Json × List Char)
  | 0, _ => none
  | fuel + 1, cs =>
    match pValue fuel cs with
    | none => none
    | some (v, r) =>
      match skipWs r with
      | ',' :: r2 =>
        match pItems fuel r2 with
        | some (xs, r3) => some (v :: xs, r3)
        | none => none
      | ']' :: r2 => some ([v], r2)
      | _ => none

/-- One or more object members, consuming the closing `}`. -/
def pMembers : Nat → List Char → Option (List (String × Json) × List Char)
  | 0, _ => none
  | fuel + 1, cs =>
    match skipWs cs with
    | '"' :: r =>
      match pStringChars (r.length + 1) r with
      | some (key, r2) =>
        match skipWs r2 with
        | ':' :: r3 =>
          match pValue fuel r3 with
          | none => none
          | some (v, r4) =>
            match skipWs r4 with
            | ',' :: r5 =>
              match pMembers fuel r5 with
              | some (kvs, r6) => some ((String.mk key, v) :: kvs, r6)
              | none => none
            | '}' :: r5 => some ([(String.mk key, v)], r5)
            | _ => none
        | _ => none
      | none => none
    | _ => none

end

/-- `json.loads(s)`: one value with only whitespace around it.  The fuel
`2 * length + 2` exceeds the possible call depth (each nesting level
consumes at least one character and costs at most two calls). -/
def jsonLoads (s : String) : Option Json :=
  match pValue (2 * s.length + 2) s.toList with
  | some (v, rest) => if (skipWs rest).isEmpty then some v else none
  | none => none

/-- Dictionary access on parsed members: the last binding wins, as in a
Python dict built from a member list. -/
def lookupLast (key : String) : List (String × Json) → Option Json
  | [] => none
  | (k, v) :: rest =>
    match lookupLast key rest with
    | some r => some r
    | none => if k = key then some v else none

/-! ## JSON extraction and chunk parsing
(`chunking/claude_integration.py`, `extract_json_from_text` and
`parse_chunks_from_response`)

The fence pass models `re.findall(r"¬```(?:json)?\s*([\s\S]*?)```¬", text)`
(backticks shown as `¬`-quoted in this comment): a match exists iff a
`¬¬¬` occurrence is followed, after an optional `json` and greedy
whitespace, by another `¬¬¬`; the first match starts at the first fence
and its lazily-captured group ends at the next fence.  The brace pass
models `re.findall(r"(\{[\s\S]*\})", text)`: the single candidate runs
from the first `{` to the last `}`. -/

/-- The suffix after the first "```" occurrence, if any. -/
def afterFence : List Char → Option (List Char)
  | '`' :: '`' :: '`' :: rest => some rest
  | _ :: rest => afterFence rest
  | [] => none

/-- The content before the next "```" occurrence, if any. -/
def beforeFence : List Char → Option (List Char)
  | '`' :: '`' :: '`' :: _ => some []
  | c :: rest => (beforeFence rest).map (c :: ·)
  | [] => none

/-- The captured group of the first fenced-block match. -/
def fenceContent (cs : List Char) : Option (List Char) :=
  match afterFence cs with
  | none => none
  | some t =>
    beforeFence ((if "json".toList.isPrefixOf t then t.drop 4 else t).dropWhile pyIsSpace)

/-- The greedy first-`{`-to-last-`}` span, if braces in that order exist. -/
def braceSpan (cs : List Char) : Option (List Char) :=
  match cs.dropWhile (· ≠ '{') with
  | [] => none
  | afterFirst =>
    match (afterFirst.reverse.dropWhile (· ≠ '}')).reverse with
    | [] => none
    | upToLast => some upToLast

/-- `extract_json_from_text(text_content, logger)`: the stripped body of
the first closed markdown fence if one exists; else the brace span when it
is valid JSON; else the original text. -/
def extract_json_from_text (s : String) : String :=
  match fenceContent s.toList with
  | some content => pyStrip (String.mk content)
  | none =>
    match braceSpan s.toList with
    | some span =>
      if (jsonLoads (String.mk span)).isSome then String.mk span else s
    | none => s

/-- `parse_chunks_from_response(text_content, logger)`: extract, parse,
then take the `chunks` list of an object — or a bare list as-is; anything
else raises `ValueError`. -/
def parse_chunks_from_response (s : String) : Except String (List Json) :=
  match jsonLoads (extract_json_from_text s) with
  | none => .error "Failed to parse JSON response"
  | some (.obj kvs) =>
    match lookupLast "chunks" kvs with
    | none => .error "Missing chunks key in response"
    | some (.arr xs) => .ok xs
    | some _ => .error "Expected chunks_data to be a list"
  | some (.arr xs) => .ok xs
  | some _ => .error "Expected chunks_data to be a list"

/-- Whether a text is a valid JSON object containing a `chunks` list. -/
def isObjWithChunksList (t : String) : Bool :=
  match jsonLoads t with
  | some (.obj kvs) =>
    match lookupLast "chunks" kvs with
    | some (.arr _) => true
    | _ => false
  | _ => false

/-- Modelled from the claim's words: the body of the input when the whole
input (modulo surrounding whitespace) is a single markdown code fence
(```` ``` ```` or ```` ```json ````). -/
def unwrapSingleFence (s : String) : Option String :=
  match (pyStrip s).toList with
  | cs =>
    if "```json".toList.isPrefixOf cs ∧ "```".toList.isSuffixOf cs ∧ 10 ≤ cs.length
    then some (String.mk ((cs.drop 7).take (cs.length - 10)))
    else if "```".toList.isPrefixOf cs ∧ "```".toList.isSuffixOf cs ∧ 6 ≤ cs.length
    then some (String.mk ((cs.drop 3).take (cs.length - 6)))
    else none

/-- Modelled from the claim's words: the input is a valid JSON object
containing a `chunks` list, optionally wrapped in a single markdown code
fence. -/
def claimAccepts (s : String) : Bool :=
  isObjWithChunksList s ||
    (match unwrapSingleFence s with
     | some body => isObjWithChunksList body
     | none => false)

/-- The amended acceptance function: what extraction-then-parsing yields. -/
def amendedAccepts (s : String) : Option (List Json) :=
  match jsonLoads (extract_json_from_text s) with
  | some (.obj kvs) =>
    match lookupLast "chunks" kvs with
    | some (.arr xs) => some xs
    | _ => none
  | some (.arr xs) => some xs
  | _ => none

/-! ## Repository cloning (`repository/clone.py`, `utils/error_handling.py`)

The clone attempt (`_clone_operation`, wrapping validation, cleanup and the
git subprocess calls) is the oracle `op`: `op n` is the outcome of the
`n`-th attempt, were it made.  Alongside the result we record how many
attempts were actually made and the list of back-off sleeps (in seconds)
actually performed, so that retry behaviour is observable. -/

/-- The remote-URL test of `clone_repository`:
`repository_url.startswith(("http://", "https://", "git@"))`. -/
def isRemoteUrl (url : String) : Bool :=
  pyStartsWith url "http://" ∨ pyStartsWith url "https://" ∨ pyStartsWith url "git@"

/-- `handle_operation(operation, error_message, logger)`
(`utils/error_handling.py`): one call, returning `(result, exception)`. -/
def handle_operation (outcome : Except String String) :
    Option String × Option String :=
  match outcome with
  | .ok r => (some r, none)
  | .error e => (none, some e)

/-- Outcome of `clone_repository`, instrumented with the number of clone
attempts made and the back-off sleeps performed. -/
structure CloneOutcome where
  result : Except String String
  attempts : Nat
  sleeps : List Nat
deriving Repr

/-- `clone_repository(repository_url, repo_path, ...)`: a local path is
returned as-is; a remote URL is cloned through a single
`handle_operation` call, and a failure raises
`RuntimeError(f"Failed to clone repository: {error}")` at once. -/
def clone_repository (repository_url repo_path : String)
    (op : Nat → Except String String) : CloneOutcome :=
  if isRemoteUrl repository_url then
    match handle_operation (op 0) with
    | (_, some e) => ⟨.error ("Failed to clone repository: " ++ e), 1, []⟩
    | (result, none) => ⟨.ok (result.getD repo_path), 1, []⟩
  else ⟨.ok repo_path, 0, []⟩

/-- `operation_with_retry(operation, ..., max_retries)`
(`utils/error_handling.py`), instrumented like `CloneOutcome`: up to
`remaining` attempts, sleeping `2 ** attempt` seconds between failed
attempts.  This helper exists in the codebase and is used for the Bedrock
API call — not for cloning. -/
def retryGo (op : Nat → Except String String) :
    Nat → Nat → Except String String × Nat × List Nat
  | 0, attempt =>
    (.error "Operation failed for unknown reasons", attempt, [])
  | remaining + 1, attempt =>
    match op attempt with
    | .ok r => (.ok r, attempt + 1, [])
    | .error e =>
      if remaining = 0 then (.error ("Operation failed: " ++ e), attempt + 1, [])
      else
        let next := retryGo op remaining (attempt + 1)
        (next.1, next.2.1, 2 ^ attempt :: next.2.2)

/-- `operation_with_retry` with its default `max_retries = 3`. -/
def operation_with_retry (op : Nat → Except String String) (max_retries : Nat) :
    Except String String × Nat × List Nat :=
  retryGo op max_retries 0

/-- Modelled from the claim's words (and spec §4.1): cloning re-attempted up
to 3 times in total with exponential back-off (1 s base, doubling), fatal
only once the budget is exhausted. -/
def spec_clone_with_retry (op : Nat → Except String String) : CloneOutcome :=
  match op 0 with
  | .ok r => ⟨.ok r, 1, []⟩
  | .error _ =>
    match op 1 with
    | .ok r => ⟨.ok r, 2, [1]⟩
    | .error _ =>
      match op 2 with
      | .ok r => ⟨.ok r, 3, [1, 2]⟩
      | .error e => ⟨.error ("Failed to clone repository: " ++ e), 3, [1, 2]⟩

/-! ## Simplified structure (`chunking/chunk_processor.py`,
`create_simplified_structure`)

`code_structure` maps file paths to extracted elements.  An element set is
embedded by the strings whose lengths the token estimate adds up:
`functions` and `classes` hold the `str(...)` renderings of the extracted
dictionaries, `comments` holds the comment `"text"` values.  Paths are the
repo-relative keys (`os.path.relpath` of the dict key).  The projection of
each included entry to name/type/class fields does not affect which files
are included, the returned count, or the token estimate, so an included
entry is carried unchanged. -/

structure FileElements where
  functions : List String
  classes : List String
  comments : List String
deriving DecidableEq, Repr

/-- Sum of the lengths of a list of strings. -/
def sumLen (xs : List String) : Nat :=
  (xs.map String.length).sum

/-- The per-file token estimate of `create_simplified_structure`:
`len(rel_path) * 2`, plus `len(str(f))` per function, `len(str(c))` per
class, and — unless comments are filtered — `len(c["text"])` per comment. -/
def fileTokens (relPath : String) (e : FileElements) (filterComments : Bool) : Nat :=
  relPath.length * 2 + sumLen e.functions + sumLen e.classes +
    (if filterComments then 0 else sumLen e.comments)

/-- The accumulation loop of `create_simplified_structure`: stop when 300
files are in (`file_count >= max_files`), when the accumulator already
reached the cap (`estimated_tokens >= token_limit`, dead in practice), or
when adding the next file would reach or exceed the cap
(`estimated_tokens + file_tokens >= token_limit`). -/
def simplifiedLoop (filterComments : Bool) :
    Nat → Nat → List (String × FileElements) → List (String × FileElements)
  | _, _, [] => []
  | fileCount, tokens, (p, e) :: rest =>
    if 300 ≤ fileCount ∨ 180000 ≤ tokens then []
    else if 180000 ≤ tokens + fileTokens p e filterComments then []
    else
      (p, e) :: simplifiedLoop filterComments (fileCount + 1)
        (tokens + fileTokens p e filterComments) rest

/-- Files sorted by path (`sorted(code_structure.keys())`; keys are unique
in a dict, so sorting the pairs by key is the same iteration). -/
def sortByPath (cs : List (String × FileElements)) : List (String × FileElements) :=
  List.insertionSort (fun a b => a.1 ≤ b.1) cs

/-- `create_simplified_structure(code_structure, ...)`: the included entries
in order together with the `file_count` it returns. -/
def create_simplified_structure (cs : List (String × FileElements))
    (filterComments : Bool) : List (String × FileElements) × Nat :=
  let included := simplifiedLoop filterComments 0 0 (sortByPath cs)
  (included, included.length)

/-- Modelled from the claim's words: include files in lexicographic order,
stopping at 300 files or as soon as adding the next file would take the
accumulator *strictly above* 180000. -/
def claimSimplifiedLoop (filterComments : Bool) :
    Nat → Nat → List (String × FileElements) → List (String × FileElements)
  | _, _, [] => []
  | fileCount, tokens, (p, e) :: rest =>
    if 300 ≤ fileCount then []
    else if 180000 < tokens + fileTokens p e filterComments then []
    else
      (p, e) :: claimSimplifiedLoop filterComments (fileCount + 1)
        (tokens + fileTokens p e filterComments) rest

/-- The claim's version of `create_simplified_structure`. -/
def claim_simplified_structure (cs : List (String × FileElements))
    (filterComments : Bool) : List (String × FileElements) × Nat :=
  let included := claimSimplifiedLoop filterComments 0 0 (sortByPath cs)
  (included, included.length)

/-- The amended stopping rule, phrased with remaining slots and remaining
budget: a file is included exactly when a slot remains and its token
estimate is strictly below the remaining budget (i.e. adding it would not
reach or exceed the 180000 cap). -/
def amendedLoop (filterComments : Bool) :
    Nat → Nat → List (String × FileElements) → List (String × FileElements)
  | _, _, [] => []
  | slots, budget, (p, e) :: rest =>
    match slots with
    | 0 => []
    | slots' + 1 =>
      if budget ≤ fileTokens p e filterComments then []
      else
        (p, e) :: amendedLoop filterComments slots'
          (budget - fileTokens p e filterComments) rest

/-- Total token estimate of a list of included files. -/
def sumTokens (filterComments : Bool) (included : List (String × FileElements)) : Nat :=
  (included.map fun pe => fileTokens pe.1 pe.2 filterComments).sum

end CodeAnalysis

namespace CodeAnalysis

/-! ## Claim-side (spec-worded) view of the heading renumbering

The claim describes the transformed `M` of an H2 line as "the 1-based count
of H2 lines seen since the most recent H1 line in that section", recomputed
from the line's prefix, rather than the code's running counter. -/

/-- One step of the claim's H2 count: reset to 0 at an H1, increment at an
H2, keep otherwise. -/
def headingStep (acc : Nat) (line : String) : Nat :=
  match headingMatch line with
  | some (1, _) => 0
  | some (2, _) => acc + 1
  | _ => acc

/-- The claim's `M` for the line closing the prefix `pref`: the count of H2
lines since the most recent H1 (1-based at an H2 line itself). -/
def subIndexAt (pref : List String) : Nat :=
  pref.foldl headingStep 0

/-- The claim's per-line rule: `# X` becomes `## n. X`; `## X` becomes
`### n.m. X`; a deeper heading gains one `#`; anything else is verbatim.
A "heading" is what the code's regex `^(#+)\s+(.*)` recognises, `X` being
the text after the hashes and the whitespace. -/
def claimLineTransform (n m : Nat) (line : String) : String :=
  match headingMatch line with
  | some (1, text) => "## " ++ toString n ++ ". " ++ text
  | some (2, text) => "### " ++ toString n ++ "." ++ toString m ++ ". " ++ text
  | some (lvl, text) => hashRun (lvl + 1) ++ " " ++ text
  | none => line

theorem transformLines_head (n sub : Nat) (l : String) (rest : List String) :
    transformLines n sub (l :: rest)
      = claimLineTransform n (headingStep sub l) l
          :: transformLines n (headingStep sub l) rest := by
  rcases h : headingMatch l with _ | ⟨lvl, text⟩
  · simp [transformLines, claimLineTransform, headingStep, h]
  · rcases lvl with _ | _ | _ | lvl <;>
      simp [transformLines, claimLineTransform, headingStep, h]

theorem transformLines_spec (n : Nat) (ls : List String) : ∀ (sub : Nat),
    transformLines n sub ls
      = ls.mapIdx (fun j line =>
          claimLineTransform n ((ls.take (j + 1)).foldl headingStep sub) line) := by
  induction ls with
  | nil => intro sub; simp [transformLines]
  | cons l rest ih =>
    intro sub
    rw [transformLines_head]
    simp only [List.mapIdx_cons, List.take_succ_cons, List.foldl_cons,
      List.take_zero]
    refine congrArg₂ _ (by simp) ?_
    rw [ih (headingStep sub l)]

theorem mapIdx_fn_ext {α β : Type _} (f g : Nat → α → β) (l : List α)
    (h : ∀ i a, f i a = g i a) : l.mapIdx f = l.mapIdx g := by
  have hf : f = g := funext fun i => funext fun a => h i a
  rw [hf]

theorem transformedParts_spec (opts : List (Option String)) : ∀ (idx : Nat),
    transformedParts idx opts
      = (opts.filterMap id).mapIdx
          (fun k v => transform_report_section v (idx + k + 1)) := by
  induction opts with
  | nil => intro idx; simp [transformedParts]
  | cons o rest ih =>
    intro idx
    cases o with
    | none => simp [transformedParts, ih idx]
    | some v =>
      have hfm : List.filterMap id (some v :: rest) = v :: List.filterMap id rest := by
        simp
      rw [hfm, List.mapIdx_cons]
      show transform_report_section v (idx + 1) :: transformedParts (idx + 1) rest = _
      rw [ih (idx + 1)]
      refine congrArg₂ _ (by norm_num) (mapIdx_fn_ext _ _ _ ?_)
      intro k v'
      have h2 : idx + 1 + k + 1 = idx + (k + 1) + 1 := by omega
      rw [h2]

/-! ## Theorems for C1, C4 and C10 -/

/-- **C1.** The consolidated report is the prologue header followed by the
populated sections, in `ReportSection` declaration order, joined by blank
lines; the `i`-th populated section (1-based) is transformed line by line:
`# X` becomes `## i. X`, `## X` becomes `### i.M. X` with `M` the 1-based
count of H2 lines since the most recent H1 of the section (reset at each
H1), deeper headings gain exactly one `#`, and non-heading lines are kept
verbatim. -/
theorem C1_consolidated_report_renumbering (st : CodeAnalysisState) :
    (generate_consolidated_report st).consolidated_report =
      reportHeader st ++
        pyJoin "\n\n"
          ((st.report_sections.fieldValues.filterMap id).mapIdx
            (fun k content =>
              pyJoin "\n" ((pySplitNl content).mapIdx
                (fun j line =>
                  claimLineTransform (k + 1)
                    (subIndexAt ((pySplitNl content).take (j + 1))) line)))) := by
  show reportHeader st ++ pyJoin "\n\n" (transformedParts 0 st.report_sections.fieldValues) = _
  rw [transformedParts_spec]
  refine congrArg _ (congrArg _ (mapIdx_fn_ext _ _ _ ?_))
  intro k content
  show transform_report_section content (0 + k + 1) = _
  rw [Nat.zero_add]
  unfold transform_report_section
  rw [transformLines_spec]
  rfl

/-! ## Theorems for C2 -/

theorem topicContext_absent (topic : CodeAnalysisChunk → Option String)
    (chunks : List CodeAnalysisChunk) (h : ∀ c ∈ chunks, topic c = none) :
    topicContext topic chunks = "" := by
  unfold topicContext
  rw [List.filterMap_eq_nil_iff.mpr]
  · rfl
  · intro c hc
    rw [h c hc]

/-- A state in which every analyzed chunk has every topic field absent. -/
def AllTopicsAbsent (s : CodeAnalysisState) : Prop :=
  ∀ c ∈ s.analyzed_code_chunks,
    c.data_model = none ∧ c.interfaces = none ∧ c.business_logic = none ∧
    c.dependencies = none ∧ c.configuration = none ∧ c.infrastructure = none ∧
    c.non_functional = none

/-- **C2 (amended).** If every analyzed chunk has all seven topic fields
absent, the data-model aggregator records its `# Data Model Report` header
with the "no information found" sentinel, and the interfaces aggregator then
raises `UnboundLocalError` (its empty-context sentinel is dead code, being
overwritten by an unconditional LLM call that reads the unbound local
`system_prompt`), so the workflow aborts and no consolidated report is
produced at all — in particular the consolidated report is never "only the
prologue header". -/
theorem C2_all_topics_absent_pipeline_raises
    (odm oif obl odep ocfg oinf onf : String → String) (s : CodeAnalysisState)
    (h : AllTopicsAbsent s) :
    runReportPipeline odm oif obl odep ocfg oinf onf s =
        Except.error
          "UnboundLocalError: local variable system_prompt referenced before assignment" ∧
      (generate_data_model_report odm s).report_sections.data_model =
        some "# Data Model Report\n\nNo data model information found in the analyzed code chunks." := by
  have hdm : topicContext (fun c => c.data_model) s.analyzed_code_chunks = "" :=
    topicContext_absent _ _ (fun c hc => ((h c hc).1))
  have hif :
      topicContext (fun c => c.interfaces)
        (generate_data_model_report odm s).analyzed_code_chunks = "" :=
    topicContext_absent _ _ (fun c hc => ((h c hc).2.1))
  have hifc :
      generate_interfaces_report oif (generate_data_model_report odm s) =
        Except.error
          "UnboundLocalError: local variable system_prompt referenced before assignment" := by
    unfold generate_interfaces_report
    rw [hif]
    rfl
  constructor
  · simp only [runReportPipeline, hifc, bind, Except.bind]
  · unfold generate_data_model_report
    rw [hdm]
    rfl

/-- A chunk with all seven topic fields absent. -/
def allAbsentChunk : CodeAnalysisChunk :=
  { chunk_id := "c1", summary := "summary", data_model := none, interfaces := none,
    business_logic := none, dependencies := none, configuration := none,
    infrastructure := none, non_functional := none }

/-- A state whose only analyzed chunk contributed no topic at all. -/
def allAbsentState : CodeAnalysisState :=
  { repo_url := "https://example.com/repo.git", file_structure := "",
    languages_used := ["python"], ingested_repo_chunks := [],
    analyzed_code_chunks := [allAbsentChunk] }

/-- **C2 (counterexample).** On a state whose chunks contributed no topic,
running the seven aggregators and the consolidator does not yield a state
whose consolidated report is the prologue header: the pipeline raises at the
interfaces aggregator instead of completing. -/
theorem C2_counterexample :
    ¬ ∃ s', runReportPipeline (fun _ => "L") (fun _ => "L") (fun _ => "L")
          (fun _ => "L") (fun _ => "L") (fun _ => "L") (fun _ => "L")
          allAbsentState = Except.ok s' ∧
        s'.consolidated_report = reportHeader allAbsentState := by
  rintro ⟨s', hok, -⟩
  have hrun : runReportPipeline (fun _ => "L") (fun _ => "L") (fun _ => "L")
      (fun _ => "L") (fun _ => "L") (fun _ => "L") (fun _ => "L")
      allAbsentState =
      Except.error
        "UnboundLocalError: local variable system_prompt referenced before assignment" := by
    rfl
  rw [hrun] at hok
  exact Except.noConfusion hok

/-- Witness for the amended C2 at the concrete all-absent state. -/
theorem C2_all_topics_absent_pipeline_raises_witness :
    runReportPipeline (fun _ => "L") (fun _ => "L") (fun _ => "L") (fun _ => "L")
        (fun _ => "L") (fun _ => "L") (fun _ => "L") allAbsentState =
      Except.error
        "UnboundLocalError: local variable system_prompt referenced before assignment" :=
  (C2_all_topics_absent_pipeline_raises (fun _ => "L") (fun _ => "L") (fun _ => "L")
    (fun _ => "L") (fun _ => "L") (fun _ => "L") (fun _ => "L") allAbsentState
    (by intro c hc; simp [allAbsentState, allAbsentChunk] at hc; simp [hc, allAbsentChunk])).1

/-! ## Theorems for C3 -/

theorem mem_dedupKeepOrder (l : List String) : ∀ (seen : List String) (x : String),
    x ∈ dedupKeepOrder seen l ↔ x ∈ l ∧ x ∉ seen := by
  induction l with
  | nil => intro seen x; simp [dedupKeepOrder]
  | cons y ys ih =>
    intro seen x
    by_cases hy : y ∈ seen
    · rw [dedupKeepOrder, if_pos hy, ih]
      constructor
      · rintro ⟨hx, hs⟩
        exact ⟨List.mem_cons_of_mem _ hx, hs⟩
      · rintro ⟨hx, hs⟩
        rcases List.mem_cons.mp hx with rfl | hx
        · exact absurd hy hs
        · exact ⟨hx, hs⟩
    · rw [dedupKeepOrder, if_neg hy]
      constructor
      · intro hx
        rcases List.mem_cons.mp hx with rfl | hx
        · exact ⟨List.mem_cons_self _ _, hy⟩
        · obtain ⟨h1, h2⟩ := (ih (y :: seen) x).mp hx
          exact ⟨List.mem_cons_of_mem _ h1,
            fun hs => h2 (List.mem_cons_of_mem _ hs)⟩
      · rintro ⟨hx, hs⟩
        rcases List.mem_cons.mp hx with rfl | hx
        · exact List.mem_cons_self _ _
        · by_cases hxy : x = y
          · subst hxy
            exact List.mem_cons_self _ _
          · refine List.mem_cons_of_mem _ ((ih (y :: seen) x).mpr ⟨hx, ?_⟩)
            intro hmem
            rcases List.mem_cons.mp hmem with h | h
            · exact hxy h
            · exact hs h

theorem dedupKeepOrder_nodup (l : List String) : ∀ (seen : List String),
    (dedupKeepOrder seen l).Nodup := by
  induction l with
  | nil => intro seen; simp [dedupKeepOrder]
  | cons y ys ih =>
    intro seen
    by_cases hy : y ∈ seen
    · rw [dedupKeepOrder, if_pos hy]
      exact ih seen
    · rw [dedupKeepOrder, if_neg hy]
      refine List.nodup_cons.mpr ⟨?_, ih _⟩
      intro hmem
      exact ((mem_dedupKeepOrder ys (y :: seen) y).mp hmem).2 (List.mem_cons_self _ _)

theorem mem_glob_eq_pyFiles (es : FsEntries) : ∀ (pre p : String),
    (p ∈ pyMatchFiles pre es
        ∨ p ∈ (dirsPreorder pre es).flatMap (fun d => pyMatchFiles d.1 d.2))
      ↔ p ∈ pyFilesUnder pre es := by
  induction es with
  | nil => intro pre p; simp [pyMatchFiles, dirsPreorder, pyFilesUnder]
  | consFile n rest ih =>
    intro pre p
    have h := ih pre p
    simp only [pyMatchFiles, dirsPreorder, pyFilesUnder, List.mem_append] at *
    tauto
  | consDir n sub rest ihsub ihrest =>
    intro pre p
    have h1 := ihsub (pathJoin pre n) p
    have h2 := ihrest pre p
    by_cases hn : hiddenName n = true
    · simp only [pyMatchFiles, dirsPreorder, pyFilesUnder, hn, if_pos,
        List.mem_append, List.nil_append] at *
      tauto
    · simp only [pyMatchFiles, dirsPreorder, pyFilesUnder, hn,
        Bool.false_eq_true, if_false, List.mem_append, List.flatMap_cons,
        List.flatMap_append] at *
      tauto

/-- The S3 repository: files `a.py`, `dir1/t1.py`, `dir1/t2.py`,
`dir2/sub/t4.py`, each directory enumerated in sorted order. -/
def specS3Repo : FsEntries :=
  .consFile "a.py"
    (.consDir "dir1" (.consFile "t1.py" (.consFile "t2.py" .nil))
      (.consDir "dir2" (.consDir "sub" (.consFile "t4.py" .nil) .nil) .nil))

/-- A repository with files `z.py` and `a/b.py` (entries enumerated in
sorted order: the directory `a` before the file `z.py`). -/
def unsortedGlobRepo : FsEntries :=
  .consDir "a" (.consFile "b.py" .nil) (.consFile "z.py" .nil)

/-- **C3 (counterexample).** For the repository with files `z.py` and
`a/b.py`, glob expansion yields `["z.py", "a/b.py"]` — root-level matches
precede subdirectory matches — which is not the lexicographically sorted
list `["a/b.py", "z.py"]`, even though every directory is enumerated in
sorted order. -/
theorem C3_counterexample :
    expand_glob_patterns_starstar_py unsortedGlobRepo
      ≠ sortStrings (pyFilesUnder "" unsortedGlobRepo) := by
  decide

/-- **C3 (amended).** The materialized list for the single pattern
`**/*.py` contains exactly the `.py` files under the repo root having no
hidden path component (repo-relative, directories omitted, duplicates
removed) — but in glob traversal order (a directory's matches before its
subdirectories' matches), which need not be lexicographically sorted.  In
particular, for the S3 repository the result is exactly
`["a.py", "dir1/t1.py", "dir1/t2.py", "dir2/sub/t4.py"]`, which there
coincides with the sorted order. -/
theorem C3_glob_expansion (root : FsEntries) :
    (∀ p, p ∈ expand_glob_patterns_starstar_py root ↔ p ∈ pyFilesUnder "" root) ∧
      (expand_glob_patterns_starstar_py root).Nodup ∧
      expand_glob_patterns_starstar_py specS3Repo
        = ["a.py", "dir1/t1.py", "dir1/t2.py", "dir2/sub/t4.py"] := by
  refine ⟨?_, dedupKeepOrder_nodup _ [], by decide⟩
  intro p
  unfold expand_glob_patterns_starstar_py globStarStarPy
  rw [mem_dedupKeepOrder]
  simp only [List.mem_append, List.not_mem_nil, not_false_iff, and_true]
  exact mem_glob_eq_pyFiles root "" p

/-! ## Theorems for C7 -/

/-- The S1 repository: files `src/a.py`, `src/b.py`, `README.md` and an
empty `.gitignore`. -/
def s1Repo : FsEntries :=
  .consFile ".gitignore" (.consFile "README.md"
    (.consDir "src" (.consFile "a.py" (.consFile "b.py" .nil)) .nil))

/-- **C7 (counterexample).** On the S1 repository,
`generate_file_structure` does not return the claimed string (which lists
the file `README.md` before the directory `src/`): the code renders
directories before files at every level, and the `.gitignore` file is
listed too (the exclude patterns `.git`, `__pycache__`, `*.pyc` do not
match it, and `.gitignore` contents are not consulted here). -/
theorem C7_counterexample :
    generate_file_structure s1Repo
      ≠ "├── README.md\n└── src/\n    ├── a.py\n    └── b.py" := by
  decide

/-- **C7 (amended).** On the S1 repository, `generate_file_structure`
returns exactly the tree with `src/` first (marker `├── `, its two files
indented under the `│   ` prefix) followed by the files `.gitignore` and
`README.md`, the last with a `└── ` marker. -/
theorem C7_file_structure_s1 :
    generate_file_structure s1Repo
      = "├── src/\n│   ├── a.py\n│   └── b.py\n├── .gitignore\n└── README.md" := by
  decide

/-! ## Theorems for C8 -/

theorem foldl_detectStep (l : List String) : ∀ acc : Finset String,
    l.foldl detectStep acc
      = acc ∪ (l.filterMap
          (fun n => SUPPORTED_LANGUAGES.lookup (splitextExt n))).toFinset := by
  induction l with
  | nil => intro acc; simp
  | cons n l ih =>
    intro acc
    rw [List.foldl_cons]
    cases hf : SUPPORTED_LANGUAGES.lookup (splitextExt n) with
    | none =>
      rw [show detectStep acc n = acc by rw [detectStep, hf], ih acc,
        List.filterMap_cons]
      simp only [hf]
    | some lang =>
      rw [show detectStep acc n = insert lang acc by rw [detectStep, hf],
        ih (insert lang acc), List.filterMap_cons]
      simp only [hf]
      ext a
      simp only [Finset.mem_union, Finset.mem_insert, List.toFinset_cons,
        List.mem_toFinset]
      tauto

/-- A repository consisting of the single file `x.scala`. -/
def scalaRepo : FsEntries :=
  .consFile "x.scala" .nil

/-- **C8 (counterexample).** For the repository containing only `x.scala`,
the detected language set is empty, whereas the claimed six-entry mapping
(including `.scala → scala`) would detect `scala`. -/
theorem C8_counterexample :
    detect_languages scalaRepo ≠ claimDetectedLanguages scalaRepo := by
  decide

/-- **C8 (amended).** The detected language set is exactly the image, under
the five-entry table `.py→python, .js→javascript, .ts→typescript,
.cs→csharp, .java→java` (`ParserManager.SUPPORTED_LANGUAGES` has no
`.scala` entry), of the extensions of the files present under the repo
root; in particular a repository containing only a `.scala` file has no
detected language. -/
theorem C8_detect_languages (root : FsEntries) :
    detect_languages root
        = ((allFileNames root).filterMap
            (fun n => SUPPORTED_LANGUAGES.lookup (splitextExt n))).toFinset ∧
      detect_languages scalaRepo = ∅ := by
  refine ⟨?_, by decide⟩
  rw [detect_languages, foldl_detectStep]
  simp

/-! ## Theorems for C5 -/

/-- **C5 (counterexample).** The bare JSON list `[]` is not a JSON object
with a `chunks` list (fenced or not), yet `parse_chunks_from_response`
accepts it and returns it as the chunks list — so parsing succeeds on more
inputs than the claim allows. -/
theorem C5_counterexample :
    (parse_chunks_from_response "[]").isOk = true ∧ claimAccepts "[]" = false :=
  ⟨rfl, rfl⟩

/-- **C5 (amended).** Parsing succeeds exactly on inputs from which JSON
extraction yields text parsing as a JSON value that is either an object
containing a `chunks` list (which is returned) or itself a list (returned
directly); extraction takes the body of the first closed markdown fence
found anywhere in the text, else the first-`{`-to-last-`}` span when that
span is valid JSON, else the raw text.  In particular a fenced object with
prose around it, an unfenced object embedded in prose, and a bare JSON
list are all accepted; an object without a `chunks` list, or text without
extractable JSON, raises an error. -/
theorem C5_parse_chunks (s : String) :
    ((parse_chunks_from_response s).isOk = (amendedAccepts s).isSome) ∧
      (∀ l, parse_chunks_from_response s = .ok l ↔ amendedAccepts s = some l) ∧
      parse_chunks_from_response "```json\n\x7b\"chunks\": []\x7d\n```" = .ok [] ∧
      parse_chunks_from_response "Result: \x7b\"chunks\": [\x7b\x7d]\x7d done" = .ok [.obj []] ∧
      parse_chunks_from_response "\x7b\"a\": 1\x7d" = .error "Missing chunks key in response" ∧
      parse_chunks_from_response "no json here" = .error "Failed to parse JSON response" := by
  have key : ∀ l, parse_chunks_from_response s = .ok l ↔ amendedAccepts s = some l := by
    intro l
    unfold parse_chunks_from_response amendedAccepts
    cases h : jsonLoads (extract_json_from_text s) with
    | none => simp
    | some j =>
      cases j with
      | null => simp
      | bool b => simp
      | num n => simp
      | str t => simp
      | arr xs => simp
      | obj kvs =>
        cases hl : lookupLast "chunks" kvs with
        | none => simp [hl]
        | some v => cases v <;> simp [hl]
  have key2 : (parse_chunks_from_response s).isOk = (amendedAccepts s).isSome := by
    unfold parse_chunks_from_response amendedAccepts
    cases h : jsonLoads (extract_json_from_text s) with
    | none => simp [Except.isOk, Except.toBool]
    | some j =>
      cases j with
      | null => simp [Except.isOk, Except.toBool]
      | bool b => simp [Except.isOk, Except.toBool]
      | num n => simp [Except.isOk, Except.toBool]
      | str t => simp [Except.isOk, Except.toBool]
      | arr xs => simp [Except.isOk, Except.toBool]
      | obj kvs =>
        cases hl : lookupLast "chunks" kvs with
        | none => simp [hl, Except.isOk, Except.toBool]
        | some v => cases v <;> simp [hl, Except.isOk, Except.toBool]
  exact ⟨key2, key, rfl, rfl, rfl, rfl⟩

/-! ## Theorems for C6 -/

theorem simplifiedLoop_eq_amended (b : Bool) (ls : List (String × FileElements)) :
    ∀ (fileCount tokens : Nat), fileCount ≤ 300 → tokens < 180000 →
      simplifiedLoop b fileCount tokens ls =
        amendedLoop b (300 - fileCount) (180000 - tokens) ls := by
  induction ls with
  | nil => intros; simp [simplifiedLoop, amendedLoop]
  | cons pe rest ih =>
    intro fileCount tokens hfc htk
    obtain ⟨p, e⟩ := pe
    by_cases h300 : 300 ≤ fileCount
    · have hz : 300 - fileCount = 0 := by omega
      simp [simplifiedLoop, amendedLoop, h300, hz]
    · have hslots : 300 - fileCount = (300 - (fileCount + 1)) + 1 := by omega
      rw [hslots]
      simp only [simplifiedLoop, amendedLoop]
      have hcond : ¬ (300 ≤ fileCount ∨ 180000 ≤ tokens) := by omega
      rw [if_neg hcond]
      by_cases hft : 180000 ≤ tokens + fileTokens p e b
      · rw [if_pos hft, if_pos (by omega : 180000 - tokens ≤ fileTokens p e b)]
      · rw [if_neg hft, if_neg (by omega : ¬ 180000 - tokens ≤ fileTokens p e b)]
        rw [ih (fileCount + 1) (tokens + fileTokens p e b) (by omega) (by omega)]
        have hbud : 180000 - (tokens + fileTokens p e b)
            = 180000 - tokens - fileTokens p e b := by omega
        rw [hbud]

theorem amendedLoop_length_le (b : Bool) (ls : List (String × FileElements)) :
    ∀ (slots budget : Nat), (amendedLoop b slots budget ls).length ≤ slots := by
  induction ls with
  | nil => intro slots budget; simp [amendedLoop]
  | cons pe rest ih =>
    intro slots budget
    obtain ⟨p, e⟩ := pe
    match slots with
    | 0 => simp [amendedLoop]
    | slots' + 1 =>
      by_cases hft : budget ≤ fileTokens p e b
      · simp [amendedLoop, hft]
      · simp only [amendedLoop, if_neg hft, List.length_cons]
        exact Nat.succ_le_succ (ih slots' (budget - fileTokens p e b))

theorem amendedLoop_sum_lt (b : Bool) (ls : List (String × FileElements)) :
    ∀ (slots budget : Nat), 1 ≤ budget →
      sumTokens b (amendedLoop b slots budget ls) < budget := by
  induction ls with
  | nil => intro slots budget hb; simpa [amendedLoop, sumTokens] using hb
  | cons pe rest ih =>
    intro slots budget hb
    obtain ⟨p, e⟩ := pe
    match slots with
    | 0 => simpa [amendedLoop, sumTokens] using hb
    | slots' + 1 =>
      by_cases hft : budget ≤ fileTokens p e b
      · simpa [amendedLoop, hft, sumTokens] using hb
      · simp only [amendedLoop, if_neg hft, sumTokens, List.map_cons, List.sum_cons]
        have hrest := ih slots' (budget - fileTokens p e b) (by omega)
        simp only [sumTokens] at hrest
        omega

/-- The entry whose token estimate is exactly the 180000 cap. -/
def bigComment : String :=
  String.mk (List.replicate 180000 'a')

theorem bigComment_length : bigComment.length = 180000 := by
  rw [bigComment, String.length]
  exact List.length_replicate 180000 'a'

/-- **C6 (counterexample).** A single file whose token estimate is exactly
180000: adding it would not *exceed* the cap, so the claimed rule includes
it, but the code stops at reach-or-exceed and returns an empty structure
with `file_count = 0`. -/
theorem C6_counterexample :
    create_simplified_structure [("", ⟨[], [], [bigComment]⟩)] false ≠
      claim_simplified_structure [("", ⟨[], [], [bigComment]⟩)] false := by
  have hsum : sumLen [bigComment] = 180000 := by
    show (List.map String.length [bigComment]).sum = 180000
    rw [List.map_cons, List.map_nil, List.sum_cons, List.sum_nil, bigComment_length]
    rfl
  have hft : fileTokens "" ⟨[], [], [bigComment]⟩ false = 180000 := by
    rw [fileTokens,
      show (⟨[], [], [bigComment]⟩ : FileElements).functions = [] from rfl,
      show (⟨[], [], [bigComment]⟩ : FileElements).classes = [] from rfl,
      show (⟨[], [], [bigComment]⟩ : FileElements).comments = [bigComment] from rfl,
      hsum, show sumLen ([] : List String) = 0 from rfl,
      show String.length "" = 0 from rfl,
      show (if (false : Bool) then (0 : Nat) else 180000) = 180000 from rfl]
  have hsort : sortByPath [("", (⟨[], [], [bigComment]⟩ : FileElements))]
      = [("", ⟨[], [], [bigComment]⟩)] := rfl
  have hloop1 : simplifiedLoop false 0 0 [("", ⟨[], [], [bigComment]⟩)] = [] := by
    simp only [simplifiedLoop, hft]
    rw [if_neg (by omega : ¬ (300 ≤ 0 ∨ 180000 ≤ (0 : Nat))),
      if_pos (by omega : 180000 ≤ 0 + 180000)]
  have hloop2 : claimSimplifiedLoop false 0 0 [("", ⟨[], [], [bigComment]⟩)]
      = [("", ⟨[], [], [bigComment]⟩)] := by
    simp only [claimSimplifiedLoop, hft]
    rw [if_neg (by omega : ¬ (300 ≤ (0 : Nat))),
      if_neg (by omega : ¬ (180000 < 0 + 180000))]
  have hcode : create_simplified_structure [("", ⟨[], [], [bigComment]⟩)] false
      = ([], 0) := by
    unfold create_simplified_structure
    rw [hsort, hloop1]
    rfl
  have hclaim : claim_simplified_structure [("", ⟨[], [], [bigComment]⟩)] false
      = ([("", ⟨[], [], [bigComment]⟩)], 1) := by
    unfold claim_simplified_structure
    rw [hsort, hloop2]
    rfl
  rw [hcode, hclaim]
  intro h
  have h2 : (0 : Nat) = 1 := congrArg Prod.snd h
  exact absurd h2 (by omega)

/-- **C6 (amended).** `create_simplified_structure` processes files in
lexicographic path order and stops adding files as soon as 300 files are in
or the token accumulator would *reach or exceed* 180000 by adding the next
file (equivalently: a file is included only while a slot and strictly
positive budget headroom remain); consequently at most 300 files are
returned, the returned count is the number of included files, and the
accumulated token estimate stays strictly below 180000. -/
theorem C6_simplified_structure_budget (cs : List (String × FileElements)) (b : Bool) :
    create_simplified_structure cs b =
        (amendedLoop b 300 180000 (sortByPath cs),
          (amendedLoop b 300 180000 (sortByPath cs)).length) ∧
      (create_simplified_structure cs b).2 ≤ 300 ∧
      sumTokens b (create_simplified_structure cs b).1 < 180000 := by
  have heq : simplifiedLoop b 0 0 (sortByPath cs)
      = amendedLoop b 300 180000 (sortByPath cs) := by
    simpa using simplifiedLoop_eq_amended b (sortByPath cs) 0 0 (by norm_num) (by norm_num)
  refine ⟨?_, ?_, ?_⟩
  · unfold create_simplified_structure
    rw [heq]
  · show (simplifiedLoop b 0 0 (sortByPath cs)).length ≤ 300
    rw [heq]
    exact amendedLoop_length_le b (sortByPath cs) 300 180000
  · show sumTokens b (simplifiedLoop b 0 0 (sortByPath cs)) < 180000
    rw [heq]
    exact amendedLoop_sum_lt b (sortByPath cs) 300 180000 (by norm_num)

/-! ## Theorems for C9 -/

/-- A clone attempt schedule with one transient failure: attempt 0 fails,
attempt 1 would succeed. -/
def flakyCloneOp : Nat → Except String String :=
  fun n => if n = 0 then .error "transient network failure" else .ok "/tmp/repo"

/-- **C9 (counterexample).** For a remote URL whose clone fails once
transiently and would succeed on the second attempt, `clone_repository`
makes exactly one attempt, performs no back-off sleep, and raises
immediately — whereas the claimed up-to-3-attempts retry semantics would
succeed after one 1-second sleep. -/
theorem C9_counterexample :
    clone_repository "https://github.com/org/repo.git" "/tmp/repo" flakyCloneOp =
        ⟨.error "Failed to clone repository: transient network failure", 1, []⟩ ∧
      spec_clone_with_retry flakyCloneOp = ⟨.ok "/tmp/repo", 2, [1]⟩ :=
  ⟨rfl, rfl⟩

/-- **C9 (amended).** For every remote repository URL, `clone_repository`
attempts the clone exactly once (via the non-retrying `handle_operation`),
sleeps never, and on failure raises the fatal
`RuntimeError("Failed to clone repository: ...")` immediately; the
3-attempt exponential back-off helper `operation_with_retry` exists but is
used for the Bedrock API call, not for cloning. -/
theorem C9_clone_single_attempt (url path : String)
    (op : Nat → Except String String) (h : isRemoteUrl url = true) :
    clone_repository url path op =
      ⟨(match op 0 with
        | .ok r => Except.ok r
        | .error e => Except.error ("Failed to clone repository: " ++ e)), 1, []⟩ := by
  unfold clone_repository handle_operation
  rw [h]
  cases hop : op 0 <;> simp [hop]

/-- Witness for the amended C9 at a concrete URL and schedule. -/
theorem C9_clone_single_attempt_witness :
    clone_repository "https://github.com/org/repo.git" "/p"
        (fun _ => .ok "/cloned") = ⟨.ok "/cloned", 1, []⟩ := by
  have h := C9_clone_single_attempt "https://github.com/org/repo.git" "/p"
    (fun _ => .ok "/cloned") (by decide)
  simpa using h

/-! ## Theorems for C4 and C10 -/

/-- **C4.** For every requested chunk `c` and LLM record `r`,
`analyse_code_chunk` returns a record whose `chunk_id` is `c.chunk_id`;
when the ids differ only `chunk_id` is overwritten and every other field is
kept; when they agree the record is returned unchanged. -/
theorem C4_chunk_id_repair (c : CodeChunk) (r : CodeAnalysisChunk) :
    (analyse_code_chunk c r).chunk_id = c.chunk_id ∧
    (analyse_code_chunk c r).summary = r.summary ∧
    (analyse_code_chunk c r).data_model = r.data_model ∧
    (analyse_code_chunk c r).interfaces = r.interfaces ∧
    (analyse_code_chunk c r).business_logic = r.business_logic ∧
    (analyse_code_chunk c r).dependencies = r.dependencies ∧
    (analyse_code_chunk c r).configuration = r.configuration ∧
    (analyse_code_chunk c r).infrastructure = r.infrastructure ∧
    (analyse_code_chunk c r).non_functional = r.non_functional ∧
    (r.chunk_id = c.chunk_id → analyse_code_chunk c r = r) := by
  unfold analyse_code_chunk
  by_cases h : r.chunk_id = c.chunk_id <;> simp [h]

/-- Witness for C4 at the concrete scenario of S6: response id `"X"`,
requested id `"Y"`. -/
theorem C4_chunk_id_repair_witness :
    (analyse_code_chunk
        { chunk_id := "Y", description := "d", files := [], content := "" }
        { chunk_id := "X", summary := "s", data_model := none, interfaces := none,
          business_logic := none, dependencies := none, configuration := none,
          infrastructure := none, non_functional := none }).chunk_id = "Y" :=
  (C4_chunk_id_repair
      { chunk_id := "Y", description := "d", files := [], content := "" }
      { chunk_id := "X", summary := "s", data_model := none, interfaces := none,
        business_logic := none, dependencies := none, configuration := none,
        infrastructure := none, non_functional := none }).1

/-- **C10.** `process_code_chunks` changes only `analyzed_code_chunks`; on an
empty `ingested_repo_chunks` it returns the state unchanged, and otherwise
the analyzed list has exactly one record per ingested chunk, in order (the
record for chunk `i` is the subgraph's output for chunk `i`). -/
theorem C10_process_code_chunks_frame (f : CodeChunk → CodeAnalysisChunk)
    (s : CodeAnalysisState) :
    (process_code_chunks f s).repo_url = s.repo_url ∧
    (process_code_chunks f s).file_structure = s.file_structure ∧
    (process_code_chunks f s).languages_used = s.languages_used ∧
    (process_code_chunks f s).ingested_repo_chunks = s.ingested_repo_chunks ∧
    (process_code_chunks f s).report_sections = s.report_sections ∧
    (process_code_chunks f s).consolidated_report = s.consolidated_report ∧
    (process_code_chunks f s).product_requirements = s.product_requirements ∧
    (s.ingested_repo_chunks = [] → process_code_chunks f s = s) ∧
    (s.ingested_repo_chunks ≠ [] →
      (process_code_chunks f s).analyzed_code_chunks =
        s.ingested_repo_chunks.map f) := by
  unfold process_code_chunks
  by_cases h : s.ingested_repo_chunks.isEmpty <;>
    simp_all [List.isEmpty_iff]

/-- Witness for C10 at a one-chunk state. -/
theorem C10_process_code_chunks_frame_witness :
    (process_code_chunks
        (fun c => { chunk_id := c.chunk_id, summary := "ok", data_model := none,
                    interfaces := none, business_logic := none, dependencies := none,
                    configuration := none, infrastructure := none,
                    non_functional := none })
        { repo_url := "u", file_structure := "", languages_used := [],
          ingested_repo_chunks :=
            [{ chunk_id := "c1", description := "d", files := [], content := "" }] }
      ).analyzed_code_chunks =
      [{ chunk_id := "c1", summary := "ok", data_model := none,
         interfaces := none, business_logic := none, dependencies := none,
         configuration := none, infrastructure := none, non_functional := none }] := by
  have h := (C10_process_code_chunks_frame
      (fun c => { chunk_id := c.chunk_id, summary := "ok", data_model := none,
                  interfaces := none, business_logic := none, dependencies := none,
                  configuration := none, infrastructure := none,
                  non_functional := none })
      { repo_url := "u", file_structure := "", languages_used := [],
        ingested_repo_chunks :=
          [{ chunk_id := "c1", description := "d", files := [], content := "" }] }
    ).2.2.2.2.2.2.2.2 (by simp)
  simpa using h

end CodeAnalysis
